import Mathlib

/-!
Verification development for the flatland-rl simulation kernel.

The definitions below are a shallow embedding of the Python sources:
  * `flatland/envs/rail_env.py`        (the per-tick multi-agent state machine),
  * `flatland/envs/rail_generators.py` (the procedural network generators),
  * `flatland/core/grid/grid_utils.py` (grid distances).

Machine floats of the source are modelled by exact rationals, Python ints by
`Int`/`Nat`, the numpy process-wide random stream by an explicit state record,
and in-place list mutation by `List.set`.  Helpers of the repository that are
not part of the provided source files (the grid-4 transition bit helpers and
the point-connector) are modelled from the specification and marked as such
in their doc comments.
-/

/-- Grid positions are (row, col) pairs of Python ints. -/
abbrev Pos := Int × Int

/-- Shallow embedding of `GridTransitionMap`: the grid of 16-bit transition
codes, read through a total function (0 outside the stored array, which is
never consulted there because the code guards with the in-grid check). -/
structure GridTransitionMap where
  height : Nat
  width : Nat
  cells : Pos → Nat

/-- Modelled from the spec: a transition code is four 4-bit groups, one per
incoming direction N/E/S/W, each bit indicating whether that incoming
direction may exit toward N/E/S/W.  This extracts the 4-bit group of one
incoming direction (`GridTransitionMap.get_transitions` lives outside the
provided sources). -/
def transitionBits (code orientation : Nat) : Nat :=
  (code >>> ((3 - orientation) * 4)) &&& 15

/-- Modelled from the spec: the (N, E, S, W) outgoing bits for one incoming
direction, as the tuple `rail.get_transitions(pos, direction)` returns. -/
def get_transitions4 (code orientation : Nat) : Nat × Nat × Nat × Nat :=
  let b := transitionBits code orientation
  ((b >>> 3) &&& 1, (b >>> 2) &&& 1, (b >>> 1) &&& 1, b &&& 1)

/-- Modelled from the spec: the single bit saying whether incoming direction
`orientation` may exit toward `direction` (`rail.get_transition`). -/
def getTransitionBit (code orientation direction : Nat) : Nat :=
  (code >>> ((3 - orientation) * 4) >>> (3 - direction)) &&& 1

/-- `np.count_nonzero` over the 4 outgoing bits of one incoming direction. -/
def countNonzero4 (t : Nat × Nat × Nat × Nat) : Nat :=
  (if t.1 ≠ 0 then 1 else 0) + (if t.2.1 ≠ 0 then 1 else 0) +
    (if t.2.2.1 ≠ 0 then 1 else 0) + (if t.2.2.2 ≠ 0 then 1 else 0)

/-- `np.argmax` over the 4 outgoing bits (first index of the maximum). -/
def argmax4 (a b c d : Nat) : Nat :=
  if b ≤ a ∧ c ≤ a ∧ d ≤ a then 0
  else if c ≤ b ∧ d ≤ b then 1
  else if d ≤ c then 2
  else 3

/-- Modelled from the spec: `get_new_position` of `grid4_utils` (outside the
provided sources); movement offsets for headings N/E/S/W on (row, col). -/
def get_new_position (p : Pos) (d : Nat) : Pos :=
  if d = 0 then (p.1 - 1, p.2)
  else if d = 1 then (p.1, p.2 + 1)
  else if d = 2 then (p.1 + 1, p.2)
  else (p.1, p.2 - 1)

/-- Number of legal exits of a cell for one incoming heading
(`num_transitions` of `RailEnv.check_action`). -/
def numTransitions (g : GridTransitionMap) (p : Pos) (d : Nat) : Nat :=
  countNonzero4 (get_transitions4 (g.cells p) d)

/-- Per-agent state of `EnvAgent` together with its `speed_data` and
`malfunction_data` dictionaries, flattened into one record. -/
structure EnvAgent where
  position : Pos
  direction : Nat
  target : Pos
  moving : Bool
  speed : ℚ
  position_fraction : ℚ
  transition_action_on_cellexit : Int
  malfunction : Nat
  malfunction_rate : ℚ
  next_malfunction : Int
  nr_malfunctions : Nat
  old_direction : Nat
  old_position : Pos
deriving DecidableEq

instance : Inhabited EnvAgent :=
  ⟨{ position := (0, 0), direction := 0, target := (0, 0), moving := false,
     speed := 1, position_fraction := 0, transition_action_on_cellexit := 0,
     malfunction := 0, malfunction_rate := 0, next_malfunction := 0,
     nr_malfunctions := 0, old_direction := 0, old_position := (0, 0) }⟩

/-- Reward constants of `RailEnv.step` (alpha = beta = 1). -/
def epsilon : ℚ := 1 / 100

def invalid_action_penalty : ℚ := 0

def step_penalty : ℚ := -1

def global_reward : ℚ := 1

def stop_penalty : ℚ := 0

def start_penalty : ℚ := 0

/-- `RailEnv.check_action`: resolve an action into a tentative new heading,
together with `transition_valid` when it is already decided (`None`
otherwise). -/
def check_action (g : GridTransitionMap) (a : EnvAgent) (action : Int) :
    Nat × Option Bool :=
  let possible := get_transitions4 (g.cells a.position) a.direction
  let num := countNonzero4 possible
  let nd0 : Int :=
    if action = 1 then (a.direction : Int) - 1
    else if action = 3 then (a.direction : Int) + 1
    else (a.direction : Int)
  let tv0 : Option Bool :=
    if (action = 1 ∨ action = 3) ∧ num ≤ 1 then some false else none
  if action = 2 ∧ num = 1 then
    (argmax4 possible.1 possible.2.1 possible.2.2.1 possible.2.2.2, some true)
  else ((nd0 % 4).toNat, tv0)

/-- Result record of `RailEnv._check_action_on_agent`. -/
structure CheckResult where
  cell_free : Bool
  new_cell_valid : Bool
  new_direction : Nat
  new_position : Pos
  transition_valid : Bool
deriving DecidableEq

/-- The `np.clip` in-grid test of `_check_action_on_agent`. -/
def inGrid (g : GridTransitionMap) (p : Pos) : Bool :=
  0 ≤ p.1 && p.1 ≤ (g.height : Int) - 1 && 0 ≤ p.2 && p.2 ≤ (g.width : Int) - 1

/-- `RailEnv._check_action_on_agent`: the occupancy check reads the positions
of the full agent list as it stands at call time. -/
def check_action_on_agent (g : GridTransitionMap) (agents : List EnvAgent)
    (a : EnvAgent) (action : Int) : CheckResult :=
  let nd := (check_action g a action).1
  let tvO := (check_action g a action).2
  let npos := get_new_position a.position nd
  let ncv := inGrid g npos && (g.cells npos != 0)
  let tv := match tvO with
    | some b => b
    | none => getTransitionBit (g.cells a.position) a.direction nd != 0
  let cf := ! agents.any (fun a2 => a2.position == npos)
  ⟨cf, ncv, nd, npos, tv⟩

/-- Second half of `RailEnv._agent_malfunction`: sample a fresh malfunction
when the rate is positive, the agent is not broken, and the interarrival
counter reached zero; `o.1` is the sampled `int(np.random.exponential(...))`
and `o.2` the sampled `np.random.randint(min, max + 1)` (to which the code
adds 1). -/
def malfCheck (o : Nat × Nat) (a : EnvAgent) : EnvAgent :=
  if 0 < a.malfunction_rate ∧ a.malfunction = 0 then
    if a.next_malfunction ≤ 0 then
      { a with nr_malfunctions := a.nr_malfunctions + 1,
               next_malfunction := (o.1 : Int),
               malfunction := o.2 + 1 }
    else a
  else a

/-- `RailEnv._agent_malfunction`. -/
def agentMalfunction (o : Nat × Nat) (a : EnvAgent) : EnvAgent :=
  malfCheck o
    (if 0 < a.malfunction_rate then
      { a with next_malfunction := a.next_malfunction - 1 }
    else a)

/-- The mutable per-tick loop state: the live agent list, per-agent done
flags, and the per-tick reward dictionary. -/
structure StepState where
  agents : List EnvAgent
  dones : List Bool
  rewards : List ℚ
deriving DecidableEq

/-- `self.rewards_dict[i] += q`. -/
def addRew (rs : List ℚ) (i : Nat) (q : ℚ) : List ℚ :=
  rs.set i (rs.getD i 0 + q)

/-- Line 353 of `rail_env.py`: the out-of-range action guard
(`action < 0 or action > len(RailEnvActions)`, with `len(RailEnvActions) = 5`). -/
def actionGuard (action : Int) : Int :=
  if action < 0 ∨ 5 < action then 0 else action

/-- Line 361: DO_NOTHING while moving becomes MOVE_FORWARD. -/
def normalizeAction (a : EnvAgent) (action : Int) : Int :=
  if action = 0 ∧ a.moving then 2 else action

def normalizedAction (a : EnvAgent) (action : Int) : Int :=
  normalizeAction a (actionGuard action)

/-- Line 365: STOP_MOVING halts a moving agent at a cell-entry boundary. -/
def stopPhase (a : EnvAgent) (action : Int) : EnvAgent × ℚ :=
  if action = 4 ∧ a.moving ∧ a.position_fraction ≤ epsilon then
    ({ a with moving := false }, stop_penalty)
  else (a, 0)

/-- Line 371: any directional action starts a stopped agent. -/
def startPhase (a : EnvAgent) (action : Int) : EnvAgent × ℚ :=
  if ¬a.moving ∧ ¬(action = 0 ∨ action = 4) then
    ({ a with moving := true }, start_penalty)
  else (a, 0)

/-- The agent after the stop/start bookkeeping, before the movement block. -/
def preMoveAgent (a : EnvAgent) (action : Int) : EnvAgent :=
  (startPhase (stopPhase a (normalizedAction a action)).1
    (normalizedAction a action)).1

/-- The reward contributions of the stop/start bookkeeping. -/
def preMoveReward (a : EnvAgent) (action : Int) : ℚ :=
  (stopPhase a (normalizedAction a action)).2 +
    (startPhase (stopPhase a (normalizedAction a action)).1
      (normalizedAction a action)).2

/-- Outcome of the cell-entry block (lines 387-421): either the agent
proceeds to the movement half (with `action_selected` telling whether a
transition was just stored), or the branch executed `continue` after
penalising an invalid action. -/
inductive EntryOutcome where
  | proceed : EnvAgent → Bool → EntryOutcome
  | halted : EnvAgent → ℚ → EntryOutcome
deriving DecidableEq

/-- Lines 387-421 of `RailEnv.step`: at a cell-entry boundary, try to store
the requested transition; an invalid LEFT/RIGHT of a moving agent retries as
MOVE_FORWARD; a still-invalid action penalises and stops the agent. -/
def entryPhase (g : GridTransitionMap) (agents : List EnvAgent)
    (a : EnvAgent) (action : Int) : EntryOutcome :=
  if a.position_fraction ≤ epsilon then
    if ¬(action = 0) ∧ ¬(action = 4) then
      if (check_action_on_agent g agents a action).new_cell_valid ∧
          (check_action_on_agent g agents a action).transition_valid then
        .proceed { a with transition_action_on_cellexit := action } true
      else if (action = 1 ∨ action = 3) ∧ a.moving then
        if (check_action_on_agent g agents a 2).new_cell_valid ∧
            (check_action_on_agent g agents a 2).transition_valid then
          .proceed { a with transition_action_on_cellexit := 2 } true
        else
          .halted { a with moving := false }
            (invalid_action_penalty + step_penalty * a.speed + stop_penalty)
      else
        .halted { a with moving := false }
          (invalid_action_penalty + step_penalty * a.speed + stop_penalty)
    else .proceed a false
  else .proceed a false

/-- Line 423: a moving agent advances its progress fraction by its speed. -/
def advancePhase (a : EnvAgent) (selected : Bool) : EnvAgent :=
  if a.moving ∧ (selected ∨ 0 < a.position_fraction) then
    { a with position_fraction := a.position_fraction + a.speed }
  else a

/-- Lines 426-439: at progress fraction ≥ 1.0, re-validate the stored
transition and commit it only when the destination is grid-valid,
transition-valid and unoccupied; otherwise leave the agent untouched. -/
def commitPhase (g : GridTransitionMap) (agents : List EnvAgent)
    (a : EnvAgent) : EnvAgent :=
  if 1 ≤ a.position_fraction then
    if (check_action_on_agent g agents a a.transition_action_on_cellexit).new_cell_valid ∧
        (check_action_on_agent g agents a a.transition_action_on_cellexit).transition_valid ∧
        (check_action_on_agent g agents a a.transition_action_on_cellexit).cell_free then
      { a with
        position := (check_action_on_agent g agents a a.transition_action_on_cellexit).new_position,
        direction := (check_action_on_agent g agents a a.transition_action_on_cellexit).new_direction,
        position_fraction := 0 }
    else a
  else a

/-- Lines 441-445: the end-of-processing target check — mark done and stop at
the target, otherwise accrue the per-speed step penalty. -/
def finishPhase (s : StepState) (i : Nat) (a : EnvAgent) (rew : ℚ) :
    StepState :=
  if a.position = a.target then
    ⟨s.agents.set i { a with moving := false }, s.dones.set i true,
      addRew s.rewards i rew⟩
  else
    ⟨s.agents.set i a, s.dones, addRew s.rewards i (rew + step_penalty * a.speed)⟩

/-- Lines 353-445 of `RailEnv.step`: everything after the malfunction branch
for one agent, from the out-of-range guard to the target check. -/
def processRest (g : GridTransitionMap) (i : Nat) (s : StepState)
    (a0 : EnvAgent) (action0 : Int) : StepState :=
  match entryPhase g (s.agents.set i (preMoveAgent a0 action0))
      (preMoveAgent a0 action0) (normalizedAction a0 action0) with
  | .halted a3 r3 =>
      ⟨s.agents.set i a3, s.dones, addRew s.rewards i (preMoveReward a0 action0 + r3)⟩
  | .proceed a3 selected =>
      let a4 := advancePhase a3 selected
      let a5 := commitPhase g (s.agents.set i a4) a4
      finishPhase s i a5 (preMoveReward a0 action0)

/-- Lines 319-445 of `RailEnv.step`: the whole body of the per-agent loop,
including the `old_*` bookkeeping, malfunction sampling, the done skip and
the malfunction countdown branch. -/
def processAgent (g : GridTransitionMap) (o : Nat × Nat) (act : Option Int)
    (i : Nat) (s : StepState) : StepState :=
  let a0 := s.agents.getD i default
  let a2 := agentMalfunction o
    { a0 with old_direction := a0.direction, old_position := a0.position }
  if s.dones.getD i false then { s with agents := s.agents.set i a2 }
  else if 0 < a2.malfunction then
    if a2.malfunction < 2 then
      processRest g i s { a2 with malfunction := a2.malfunction - 1, moving := true } 0
    else
      ⟨s.agents.set i { a2 with malfunction := a2.malfunction - 1, moving := false },
        s.dones, addRew s.rewards i (step_penalty * a2.speed)⟩
  else processRest g i s a2 (act.getD 0)

/-- The per-tick agent loop, in strictly ascending handle order. -/
def railEnvLoop (g : GridTransitionMap) (orc : Nat → Nat × Nat)
    (acts : Nat → Option Int) (n : Nat) (s0 : StepState) : StepState :=
  (List.range n).foldl (fun s i => processAgent g (orc i) (acts i) i s) s0

/-- The environment state threaded between calls of `RailEnv.step`. -/
structure RailEnvState where
  agents : List EnvAgent
  dones : List Bool
  done_all : Bool
  elapsed_steps : Nat
deriving DecidableEq

/-- `RailEnv.step`: returns the new state, the per-agent reward dictionary
and the `actionable_agents` diagnostic map.  `orc i` supplies the two
malfunction random draws of agent `i`, `acts i` the submitted action. -/
def railEnvStep (g : GridTransitionMap) (maxSteps : Option Nat)
    (orc : Nat → Nat × Nat) (acts : Nat → Option Int) (env : RailEnvState) :
    RailEnvState × List ℚ × List Bool :=
  let n := env.agents.length
  let elapsed := env.elapsed_steps + 1
  let rewards0 : List ℚ := List.replicate n 0
  if env.done_all then
    ({ env with elapsed_steps := elapsed },
      rewards0.map (fun r => r + global_reward), List.replicate n false)
  else
    let s1 := railEnvLoop g orc acts n ⟨env.agents, env.dones, rewards0⟩
    let allAtTarget := s1.agents.all (fun a => a.position == a.target)
    let rewards1 :=
      if allAtTarget then s1.rewards.map (fun r => 0 * r + global_reward)
      else s1.rewards
    let doneAll1 := if allAtTarget then true else env.done_all
    let dd2 : Bool × List Bool :=
      match maxSteps with
      | some m => if m ≤ elapsed then (true, s1.dones.map (fun _ => true))
                  else (doneAll1, s1.dones)
      | none => (doneAll1, s1.dones)
    let actionable := s1.agents.map (fun a => decide (a.position_fraction ≤ epsilon))
    (⟨s1.agents, dd2.2, dd2.1, elapsed⟩, rewards1, actionable)

/-- `distance_on_rail` of `flatland/core/grid/grid_utils.py`: the Manhattan
distance; note that in the provided source it accepts exactly the two
positional parameters `pos1` and `pos2`. -/
def distance_on_rail (pos1 pos2 : Pos) : Nat :=
  (pos1.1 - pos2.1).natAbs + (pos1.2 - pos2.2).natAbs

/-- The parameter list of `distance_on_rail` as defined in
`grid_utils.py` (line 251). -/
def distanceOnRailParams : List String := ["pos1", "pos2"]

/-- Python keyword-argument binding: a call binds only when every keyword
names a parameter of the callee, otherwise it raises a `TypeError`. -/
def pyCall_distance_on_rail (pos1 pos2 : Pos) (kwargs : List String) :
    Except String Nat :=
  if kwargs.all (fun k => distanceOnRailParams.contains k) then
    .ok (distance_on_rail pos1 pos2)
  else
    .error "TypeError: distance_on_rail got an unexpected keyword argument"

/-- The `neighb_dist` accumulation at the top of
`sparse_rail_generator._generate_node_connection_points` (lines 674-676):
every distance is requested with the keyword argument `metric`, which the
`distance_on_rail` of the provided sources does not accept. -/
def neighbDistances (p : Pos) (nodes : List Pos) : Except String (List Nat) :=
  nodes.mapM (fun q => pyCall_distance_on_rail p q ["metric"])

/-- `_generate_node_connection_points`, embedded up to its first statement
per city.  For a nonempty node list the very first `distance_on_rail` call
raises, so the remainder of the body (connection-point geometry) is
unreachable under the provided sources and is not modelled further. -/
def generateNodeConnectionPoints (nodes : List Pos) :
    Except String (List (List Nat)) :=
  nodes.mapM (fun p => neighbDistances p nodes)

/-- Modelled from the spec: the ambient process-wide numpy random stream.
`np.random.seed` replaces the state; draws are a fixed deterministic
function of the seeded key and a draw counter (the spec only requires the
stream to be deterministic and reseedable, not any particular numeric
sequence). -/
structure NpRandomState where
  key : Nat
  counter : Nat
deriving DecidableEq

/-- `np.random.seed`. -/
def npSeed (n : Nat) : NpRandomState := ⟨n, 0⟩

/-- One raw draw from the modelled stream. -/
def npNext (s : NpRandomState) : Nat × NpRandomState :=
  (((s.key + s.counter) * 2654435761) % 4294967296, ⟨s.key, s.counter + 1⟩)

/-- `np.random.randint(lo, hi)`: a draw in `[lo, hi)`. -/
def npRandint (lo hi : Nat) (s : NpRandomState) : Nat × NpRandomState :=
  let vs := npNext s
  (lo + vs.1 % max 1 (hi - lo), vs.2)

/-- Modelled from the spec: the grid mutated by the point connector.  The
`connect_rail` routine itself lives outside the provided sources
(`grid4_generators_utils`), so it is abstracted as an arbitrary function
from the current grid and two endpoints to the laid path and the updated
grid; every theorem below holds for all such functions. -/
structure ComplexOracle where
  connect_rail : (Pos → Nat) → Pos → Pos → List Pos × (Pos → Nat)

/-- Modelled from the spec: `get_direction` of `grid4_utils` (outside the
provided sources) — the compass heading from a cell to an adjacent cell. -/
def get_direction (a b : Pos) : Nat :=
  if b.1 < a.1 then 0 else if a.2 < b.2 then 1 else if a.1 < b.1 then 2 else 3

/-- Modelled from the spec: `mirror` of `grid4_utils` — the opposite
heading. -/
def mirror (d : Nat) : Nat := (d + 2) % 4

/-- `sanity_max` of `complex_rail_generator.generator`. -/
def sanityMax : Nat := 9000

/-- `check_all_dist` of `complex_rail_generator.generator`: every endpoint of
the fresh pair keeps distance ≥ 2 from every endpoint already placed. -/
def check_all_dist (start goal : Pos) (existing : List (Pos × Pos)) : Bool :=
  existing.all (fun sg =>
    2 ≤ distance_on_rail start sg.1 && 2 ≤ distance_on_rail start sg.2 &&
    2 ≤ distance_on_rail goal sg.1 && 2 ≤ distance_on_rail goal sg.2)

/-- The inner `for _ in range(sanity_max)` endpoint-sampling loop of step 1:
sample a start/goal pair on empty cells satisfying the distance constraints,
or give up after the attempt budget. -/
def samplePair (height width min_dist max_dist : Nat) (grid : Pos → Nat)
    (existing : List (Pos × Pos)) :
    Nat → NpRandomState → Option (Pos × Pos) × NpRandomState
  | 0, rng => (none, rng)
  | fuel + 1, rng =>
    let d1 := npRandint 0 height rng
    let d2 := npRandint 0 width d1.2
    let d3 := npRandint 0 height d2.2
    let d4 := npRandint 0 width d3.2
    let start : Pos := ((d1.1 : Int), (d2.1 : Int))
    let goal : Pos := ((d3.1 : Int), (d4.1 : Int))
    let rng := d4.2
    if grid goal ≠ 0 ∨ grid start ≠ 0 then
      samplePair height width min_dist max_dist grid existing fuel rng
    else if distance_on_rail start goal < min_dist then
      samplePair height width min_dist max_dist grid existing fuel rng
    else if max_dist < distance_on_rail start goal then
      samplePair height width min_dist max_dist grid existing fuel rng
    else if check_all_dist start goal existing then (some (start, goal), rng)
    else samplePair height width min_dist max_dist grid existing fuel rng

/-- Loop state of step 1 of `complex_rail_generator.generator`. -/
structure Step1State where
  grid : Pos → Nat
  rng : NpRandomState
  start_goal : List (Pos × Pos)
  start_dir : List Nat
  nr_created : Nat
  created_sanity : Nat

/-- Step 1 of `complex_rail_generator.generator` (lines 92-135): create up to
`nr_start_goal` connected start/goal pairs, counting failed connection
attempts in `created_sanity`; the loop guard bounds both counters.  `fuel`
only makes the recursion structural: the termination theorem shows the
initial fuel `nr_start_goal + sanity_max` is never exhausted. -/
def step1Loop (co : ComplexOracle) (nsg min_dist max_dist height width : Nat) :
    Nat → Step1State → Option Step1State
  | fuel, st =>
    if st.nr_created < nsg ∧ st.created_sanity < sanityMax then
      match fuel with
      | 0 => none
      | fuel + 1 =>
        match samplePair height width min_dist max_dist st.grid st.start_goal
            sanityMax st.rng with
        | (none, rng) => some { st with rng := rng }
        | (some (start, goal), rng) =>
          let pg := co.connect_rail st.grid start goal
          if 2 ≤ pg.1.length then
            step1Loop co nsg min_dist max_dist height width fuel
              { grid := pg.2, rng := rng,
                start_goal := st.start_goal ++ [(start, goal)],
                start_dir := st.start_dir ++
                  [mirror (get_direction (pg.1.getD 0 (0, 0)) (pg.1.getD 1 (0, 0)))],
                nr_created := st.nr_created + 1,
                created_sanity := st.created_sanity }
          else
            step1Loop co nsg min_dist max_dist height width fuel
              { st with grid := pg.2, rng := rng,
                        created_sanity := st.created_sanity + 1 }
    else some st

/-- The inner sampling loop of step 2: find a start/goal pair on two
non-empty cells, or give up after the attempt budget. -/
def sampleRailPair (height width : Nat) (grid : Pos → Nat) :
    Nat → NpRandomState → Option (Pos × Pos) × NpRandomState
  | 0, rng => (none, rng)
  | fuel + 1, rng =>
    let d1 := npRandint 0 height rng
    let d2 := npRandint 0 width d1.2
    let d3 := npRandint 0 height d2.2
    let d4 := npRandint 0 width d3.2
    let start : Pos := ((d1.1 : Int), (d2.1 : Int))
    let goal : Pos := ((d3.1 : Int), (d4.1 : Int))
    if grid goal = 0 ∨ grid start = 0 then
      sampleRailPair height width grid fuel d4.2
    else (some (start, goal), d4.2)

/-- Step 2 of `complex_rail_generator.generator` (lines 137-154): add extra
connections between existing rail.  Note the source never increments
`created_sanity` here, so this loop has no failure budget; the embedding
therefore takes its iteration fuel as an explicit parameter. -/
def step2Loop (co : ComplexOracle) (nr_extra height width : Nat) :
    Nat → (Pos → Nat) → NpRandomState → Nat → Nat → (Pos → Nat) × NpRandomState
  | 0, grid, rng, _, _ => (grid, rng)
  | fuel + 1, grid, rng, nr_created, created_sanity =>
    if nr_created < nr_extra ∧ created_sanity < sanityMax then
      match sampleRailPair height width grid sanityMax rng with
      | (none, rng) => (grid, rng)
      | (some (start, goal), rng) =>
        let pg := co.connect_rail grid start goal
        if 2 ≤ pg.1.length then
          step2Loop co nr_extra height width fuel pg.2 rng (nr_created + 1) created_sanity
        else
          step2Loop co nr_extra height width fuel pg.2 rng nr_created created_sanity
    else (grid, rng)

/-- `complex_rail_generator(...).generator`: reseed the ambient stream from
`seed + num_resets`, run step 1 and step 2, and return the grid with the
`start_goal`/`start_dir` hints.  The incoming ambient stream state is the
state np.random happened to be in before the call; the body's first action
overwrites it. -/
def complexRailGenerator (co : ComplexOracle)
    (nr_start_goal nr_extra min_dist max_dist seed fuel2 : Nat)
    (width height num_agents num_resets : Nat) (ambient : NpRandomState) :
    ((Pos → Nat) × List (Pos × Pos) × List Nat) × NpRandomState :=
  let _ := num_agents  -- only clamped for a printed warning in the source
  let _ := ambient
  let rng0 := npSeed (seed + num_resets)
  let st0 : Step1State := ⟨fun _ => 0, rng0, [], [], 0, 0⟩
  let st1 := (step1Loop co nr_start_goal min_dist max_dist height width
    (nr_start_goal + sanityMax) st0).getD st0
  let gr2 := step2Loop co nr_extra height width fuel2 st1.grid st1.rng 0 0
  ((gr2.1, st1.start_goal, st1.start_dir), gr2.2)

/-- `node_radius` of `sparse_rail_generator.generator`:
`int(np.ceil((max_tracks_in_city + 2) / 2.0)) + 1` in exact arithmetic. -/
def sparseNodeRadius (max_tracks_in_city : Nat) : Nat :=
  (max_tracks_in_city + 3) / 2 + 1

/-- The body of the `while to_close` placement loop of
`_generate_random_node_positions` for one city: sample centres until one
clears every existing city by `2 * (node_radius + 1) + 1`, giving up after
the `tries > 200` budget. -/
def sampleNodeLoop (node_radius height width : Nat) (existing : List Pos) :
    Nat → NpRandomState → Option Pos × NpRandomState
  | 0, rng => (none, rng)
  | fuel + 1, rng =>
    let d1 := npRandint 0 (height - 2 * (node_radius + 1)) rng
    let d2 := npRandint 0 (width - 2 * (node_radius + 1)) d1.2
    let x : Int := (node_radius : Int) + 1 + (d1.1 : Int)
    let y : Int := (node_radius : Int) + 1 + (d2.1 : Int)
    if existing.any (fun q =>
        (x - q.1).natAbs < 2 * (node_radius + 1) + 1 ∧
        (y - q.2).natAbs < 2 * (node_radius + 1) + 1) then
      sampleNodeLoop node_radius height width existing fuel d2.2
    else (some (x, y), d2.2)

/-- `_generate_random_node_positions`: place up to `nb_nodes` city centres,
carrying the accumulated centre list. -/
def generateRandomNodePositionsAux (nb_nodes node_radius height width : Nat)
    (acc : List Pos) (rng : NpRandomState) : List Pos × NpRandomState :=
  match nb_nodes with
  | 0 => (acc, rng)
  | n + 1 =>
    let pr := sampleNodeLoop node_radius height width acc 201 rng
    match pr.1 with
    | none => generateRandomNodePositionsAux n node_radius height width acc pr.2
    | some p => generateRandomNodePositionsAux n node_radius height width (acc ++ [p]) pr.2

/-- `_generate_random_node_positions`: place up to `nb_nodes` city centres. -/
def generateRandomNodePositions (nb_nodes node_radius height width : Nat)
    (rng : NpRandomState) : List Pos × NpRandomState :=
  generateRandomNodePositionsAux nb_nodes node_radius height width [] rng

/-- Prefix of `sparse_rail_generator(...).generator` (random placement mode):
reseed from `seed + num_resets`, place the city centres, then compute the
per-city connection points — whose first statement calls `distance_on_rail`
with the unsupported keyword `metric` and therefore raises for every
nonempty city list.  Everything after that call is unreachable under the
provided sources. -/
def sparseRailGeneratorModel (num_cities max_tracks_in_city seed : Nat)
    (width height num_agents num_resets : Nat) (ambient : NpRandomState) :
    Except String (List (List Nat)) × NpRandomState :=
  let _ := num_agents
  let _ := ambient
  let rng0 := npSeed (seed + num_resets)
  let radius := sparseNodeRadius max_tracks_in_city
  let nr := generateRandomNodePositions num_cities radius height width rng0
  (generateNodeConnectionPoints nr.1, nr.2)

/-! Concrete fixtures: a 1 x 5 grid of east-west straight track (transition
code 1025 = 0b0000010000000001) used by the witnesses and counterexamples. -/

def gridEW : GridTransitionMap :=
  ⟨1, 5, fun p => if p.1 = 0 ∧ 0 ≤ p.2 ∧ p.2 ≤ 4 then 1025 else 0⟩

/-- An eastbound agent on `gridEW`. -/
def agentOn (pos tgt : Pos) (mov : Bool) (frac : ℚ) (malf : Nat) : EnvAgent :=
  { position := pos, direction := 1, target := tgt, moving := mov,
    speed := 1, position_fraction := frac, transition_action_on_cellexit := 0,
    malfunction := malf, malfunction_rate := 0, next_malfunction := 0,
    nr_malfunctions := 0, old_direction := 0, old_position := (0, 0) }

def noOracle : Nat → Nat × Nat := fun _ => (0, 0)

def noActions : Nat → Option Int := fun _ => none

def sMalf3 : StepState := ⟨[agentOn (0, 1) (0, 9) true 0 3], [false], [0]⟩

def sReach : StepState := ⟨[agentOn (0, 1) (0, 2) true 0 0], [false], [0]⟩

def agBlocker : EnvAgent := agentOn (0, 2) (0, 4) false 0 0

def agMover : EnvAgent := agentOn (0, 1) (0, 4) true 0 0

def sBlocked : StepState := ⟨[agBlocker, agMover], [false, false], [0, 0]⟩

def sC4 : StepState := ⟨[agentOn (0, 1) (0, 4) false 0 0], [false], [0]⟩

/- The Batteries rational arithmetic is sealed; reopening it lets `decide`
evaluate the embedded step function on concrete states. -/
unseal Rat.add Rat.mul Rat.sub Rat.inv Rat.ofScientific

/-! Helper lemmas about `List.set` used by the occupancy invariant. -/

theorem list_set_getD_self {α : Type} (d : α) :
    ∀ (l : List α) (i : Nat), l.set i (l.getD i d) = l := by
  intro l
  induction l with
  | nil => intro i; rfl
  | cons x t ih =>
    intro i
    cases i with
    | zero => rw [List.getD_cons_zero]; rfl
    | succ j =>
      rw [List.getD_cons_succ]
      show x :: t.set j (t.getD j d) = x :: t
      rw [ih j]

theorem list_nodup_set {α : Type} {x : α} :
    ∀ {l : List α} (i : Nat), l.Nodup → x ∉ l → (l.set i x).Nodup := by
  intro l
  induction l with
  | nil => intro i _ _; simp
  | cons h t ih =>
    intro i hnd hx
    cases i with
    | zero =>
      simp only [List.set]
      simp only [List.nodup_cons] at hnd ⊢
      refine ⟨fun hmem => hx (List.mem_cons_of_mem h hmem), hnd.2⟩
    | succ j =>
      simp only [List.set]
      simp only [List.nodup_cons] at hnd ⊢
      have hxt : x ∉ t := fun hmem => hx (List.mem_cons_of_mem h hmem)
      refine ⟨fun hmem => ?_, ih j hnd.2 hxt⟩
      rcases List.mem_or_eq_of_mem_set hmem with hm | he
      · exact hnd.1 hm
      · exact hx (he ▸ List.mem_cons_self h t)

/-! Field-preservation lemmas for the per-agent phases. -/

theorem malfCheck_position (o : Nat × Nat) (a : EnvAgent) :
    (malfCheck o a).position = a.position := by
  unfold malfCheck; split <;> [skip; rfl]; split <;> rfl

theorem malfCheck_direction (o : Nat × Nat) (a : EnvAgent) :
    (malfCheck o a).direction = a.direction := by
  unfold malfCheck; split <;> [skip; rfl]; split <;> rfl

theorem malfCheck_fraction (o : Nat × Nat) (a : EnvAgent) :
    (malfCheck o a).position_fraction = a.position_fraction := by
  unfold malfCheck; split <;> [skip; rfl]; split <;> rfl

theorem malfCheck_moving (o : Nat × Nat) (a : EnvAgent) :
    (malfCheck o a).moving = a.moving := by
  unfold malfCheck; split <;> [skip; rfl]; split <;> rfl

theorem malfCheck_speed (o : Nat × Nat) (a : EnvAgent) :
    (malfCheck o a).speed = a.speed := by
  unfold malfCheck; split <;> [skip; rfl]; split <;> rfl

theorem malfCheck_target (o : Nat × Nat) (a : EnvAgent) :
    (malfCheck o a).target = a.target := by
  unfold malfCheck; split <;> [skip; rfl]; split <;> rfl

theorem malfCheck_ta (o : Nat × Nat) (a : EnvAgent) :
    (malfCheck o a).transition_action_on_cellexit = a.transition_action_on_cellexit := by
  unfold malfCheck; split <;> [skip; rfl]; split <;> rfl

theorem malfCheck_malfunction_pos (o : Nat × Nat) (a : EnvAgent)
    (h : a.malfunction ≠ 0) : (malfCheck o a).malfunction = a.malfunction := by
  unfold malfCheck
  split
  · next hc => exact absurd hc.2 h
  · rfl

theorem agentMalfunction_position (o : Nat × Nat) (a : EnvAgent) :
    (agentMalfunction o a).position = a.position := by
  unfold agentMalfunction; rw [malfCheck_position]; split <;> rfl

theorem agentMalfunction_direction (o : Nat × Nat) (a : EnvAgent) :
    (agentMalfunction o a).direction = a.direction := by
  unfold agentMalfunction; rw [malfCheck_direction]; split <;> rfl

theorem agentMalfunction_fraction (o : Nat × Nat) (a : EnvAgent) :
    (agentMalfunction o a).position_fraction = a.position_fraction := by
  unfold agentMalfunction; rw [malfCheck_fraction]; split <;> rfl

theorem agentMalfunction_moving (o : Nat × Nat) (a : EnvAgent) :
    (agentMalfunction o a).moving = a.moving := by
  unfold agentMalfunction; rw [malfCheck_moving]; split <;> rfl

theorem agentMalfunction_speed (o : Nat × Nat) (a : EnvAgent) :
    (agentMalfunction o a).speed = a.speed := by
  unfold agentMalfunction; rw [malfCheck_speed]; split <;> rfl

theorem agentMalfunction_target (o : Nat × Nat) (a : EnvAgent) :
    (agentMalfunction o a).target = a.target := by
  unfold agentMalfunction; rw [malfCheck_target]; split <;> rfl

theorem agentMalfunction_ta (o : Nat × Nat) (a : EnvAgent) :
    (agentMalfunction o a).transition_action_on_cellexit
      = a.transition_action_on_cellexit := by
  unfold agentMalfunction; rw [malfCheck_ta]; split <;> rfl

theorem agentMalfunction_malfunction_pos (o : Nat × Nat) (a : EnvAgent)
    (h : a.malfunction ≠ 0) :
    (agentMalfunction o a).malfunction = a.malfunction := by
  unfold agentMalfunction
  split <;> exact malfCheck_malfunction_pos o _ h

theorem stopPhase_position (a : EnvAgent) (act : Int) :
    (stopPhase a act).1.position = a.position := by
  unfold stopPhase; split <;> rfl

theorem stopPhase_direction (a : EnvAgent) (act : Int) :
    (stopPhase a act).1.direction = a.direction := by
  unfold stopPhase; split <;> rfl

theorem stopPhase_fraction (a : EnvAgent) (act : Int) :
    (stopPhase a act).1.position_fraction = a.position_fraction := by
  unfold stopPhase; split <;> rfl

theorem stopPhase_speed (a : EnvAgent) (act : Int) :
    (stopPhase a act).1.speed = a.speed := by
  unfold stopPhase; split <;> rfl

theorem stopPhase_ta (a : EnvAgent) (act : Int) :
    (stopPhase a act).1.transition_action_on_cellexit
      = a.transition_action_on_cellexit := by
  unfold stopPhase; split <;> rfl

theorem startPhase_position (a : EnvAgent) (act : Int) :
    (startPhase a act).1.position = a.position := by
  unfold startPhase; split <;> rfl

theorem startPhase_direction (a : EnvAgent) (act : Int) :
    (startPhase a act).1.direction = a.direction := by
  unfold startPhase; split <;> rfl

theorem startPhase_fraction (a : EnvAgent) (act : Int) :
    (startPhase a act).1.position_fraction = a.position_fraction := by
  unfold startPhase; split <;> rfl

theorem startPhase_speed (a : EnvAgent) (act : Int) :
    (startPhase a act).1.speed = a.speed := by
  unfold startPhase; split <;> rfl

theorem startPhase_ta (a : EnvAgent) (act : Int) :
    (startPhase a act).1.transition_action_on_cellexit
      = a.transition_action_on_cellexit := by
  unfold startPhase; split <;> rfl

theorem preMoveAgent_position (a : EnvAgent) (act : Int) :
    (preMoveAgent a act).position = a.position := by
  unfold preMoveAgent; rw [startPhase_position, stopPhase_position]

theorem preMoveAgent_direction (a : EnvAgent) (act : Int) :
    (preMoveAgent a act).direction = a.direction := by
  unfold preMoveAgent; rw [startPhase_direction, stopPhase_direction]

theorem preMoveAgent_fraction (a : EnvAgent) (act : Int) :
    (preMoveAgent a act).position_fraction = a.position_fraction := by
  unfold preMoveAgent; rw [startPhase_fraction, stopPhase_fraction]

theorem preMoveAgent_speed (a : EnvAgent) (act : Int) :
    (preMoveAgent a act).speed = a.speed := by
  unfold preMoveAgent; rw [startPhase_speed, stopPhase_speed]

theorem preMoveAgent_ta (a : EnvAgent) (act : Int) :
    (preMoveAgent a act).transition_action_on_cellexit
      = a.transition_action_on_cellexit := by
  unfold preMoveAgent; rw [startPhase_ta, stopPhase_ta]

theorem advancePhase_position (a : EnvAgent) (sel : Bool) :
    (advancePhase a sel).position = a.position := by
  unfold advancePhase; split <;> rfl

theorem advancePhase_direction (a : EnvAgent) (sel : Bool) :
    (advancePhase a sel).direction = a.direction := by
  unfold advancePhase; split <;> rfl

theorem advancePhase_speed (a : EnvAgent) (sel : Bool) :
    (advancePhase a sel).speed = a.speed := by
  unfold advancePhase; split <;> rfl

theorem advancePhase_ta (a : EnvAgent) (sel : Bool) :
    (advancePhase a sel).transition_action_on_cellexit
      = a.transition_action_on_cellexit := by
  unfold advancePhase; split <;> rfl

/-- Every outcome of the cell-entry block carries an agent whose committed
position (and direction, fraction, speed, target) is that of the input. -/
theorem entryPhase_cases (g : GridTransitionMap) (agents : List EnvAgent)
    (a : EnvAgent) (act : Int) :
    entryPhase g agents a act = .proceed a false ∨
    (∃ t : Int, entryPhase g agents a act
        = .proceed { a with transition_action_on_cellexit := t } true) ∨
    entryPhase g agents a act = .halted { a with moving := false }
      (invalid_action_penalty + step_penalty * a.speed + stop_penalty) := by
  unfold entryPhase
  split
  · split
    · split
      · exact Or.inr (Or.inl ⟨act, rfl⟩)
      · split
        · split
          · exact Or.inr (Or.inl ⟨2, rfl⟩)
          · exact Or.inr (Or.inr rfl)
        · exact Or.inr (Or.inr rfl)
    · exact Or.inl rfl
  · exact Or.inl rfl

/-- If the occupancy check reports the destination free, no agent of the
list currently stands there. -/
theorem cell_free_spec (g : GridTransitionMap) (agents : List EnvAgent)
    (a : EnvAgent) (act : Int)
    (h : (check_action_on_agent g agents a act).cell_free = true) :
    ∀ a2 ∈ agents, a2.position ≠ (check_action_on_agent g agents a act).new_position := by
  intro a2 hmem
  unfold check_action_on_agent at h ⊢
  simp only [Bool.not_eq_true', List.any_eq_false, beq_iff_eq] at h
  exact h a2 hmem

/-- The commit either leaves the agent unchanged or moves it onto a cell
that no agent of the consulted list occupies. -/
theorem commitPhase_spec (g : GridTransitionMap) (agents : List EnvAgent)
    (a : EnvAgent) :
    commitPhase g agents a = a ∨
    ((commitPhase g agents a).position_fraction = 0 ∧
      (commitPhase g agents a).target = a.target ∧
      ∀ a2 ∈ agents, a2.position ≠ (commitPhase g agents a).position) := by
  unfold commitPhase
  split
  · split
    · next hc =>
      refine Or.inr ⟨rfl, rfl, ?_⟩
      exact cell_free_spec g agents a a.transition_action_on_cellexit hc.2.2
    · exact Or.inl rfl
  · exact Or.inl rfl

/-- Replacing an agent by one standing on the same cell leaves the position
list unchanged. -/
theorem set_map_pos_eq (s : List EnvAgent) (i : Nat) (b : EnvAgent)
    (hb : b.position = (s.getD i default).position) :
    (s.set i b).map EnvAgent.position = s.map EnvAgent.position := by
  rw [List.map_set, hb]
  have h1 : (s.getD i default).position
      = (s.map EnvAgent.position).getD i (EnvAgent.position default) :=
    (List.getD_map s default EnvAgent.position).symm
  rw [h1]
  exact list_set_getD_self (EnvAgent.position default) (s.map EnvAgent.position) i

theorem finishPhase_agents_map (s : StepState) (i : Nat) (a : EnvAgent) (rew : ℚ) :
    (finishPhase s i a rew).agents.map EnvAgent.position
      = (s.agents.map EnvAgent.position).set i a.position := by
  unfold finishPhase; split <;> rw [List.map_set]

/-- The cell-entry block, the advance and the commit keep the position list
distinct: the only position rewrite is guarded by the occupancy check. -/
theorem processRest_nodup (g : GridTransitionMap) (i : Nat) (s : StepState)
    (a0 : EnvAgent) (act : Int)
    (hp : a0.position = (s.agents.getD i default).position)
    (h : (s.agents.map EnvAgent.position).Nodup) :
    ((processRest g i s a0 act).agents.map EnvAgent.position).Nodup := by
  have hpre : (preMoveAgent a0 act).position = (s.agents.getD i default).position := by
    rw [preMoveAgent_position]; exact hp
  rcases entryPhase_cases g (s.agents.set i (preMoveAgent a0 act))
      (preMoveAgent a0 act) (normalizedAction a0 act) with he | ⟨t, he⟩ | he
  case inr.inr =>
    -- halted: the agent keeps its position
    unfold processRest
    rw [he]
    have : ({ preMoveAgent a0 act with moving := false } : EnvAgent).position
        = (s.agents.getD i default).position := hpre
    simp only [set_map_pos_eq s.agents i _ this]
    exact h
  all_goals
    unfold processRest
    rw [he]
  -- proceed cases
  case inl =>
    have h4 : (advancePhase (preMoveAgent a0 act) false).position
        = (s.agents.getD i default).position := by
      rw [advancePhase_position]; exact hpre
    have hlist : ((s.agents.set i (advancePhase (preMoveAgent a0 act) false)).map
        EnvAgent.position) = s.agents.map EnvAgent.position :=
      set_map_pos_eq s.agents i _ h4
    rcases commitPhase_spec g (s.agents.set i (advancePhase (preMoveAgent a0 act) false))
        (advancePhase (preMoveAgent a0 act) false) with hc | ⟨_, _, hc⟩
    · rw [finishPhase_agents_map, hc, h4,
        ← List.getD_map s.agents default EnvAgent.position, list_set_getD_self]
      exact h
    · rw [finishPhase_agents_map]
      apply list_nodup_set _ h
      intro hmem
      rcases List.mem_map.mp ((hlist ▸ hmem : _ ∈ (s.agents.set i _).map EnvAgent.position)) with
        ⟨a2, ha2, ha2p⟩
      exact hc a2 ha2 ha2p
  case inr.inl =>
    have h4 : (advancePhase { preMoveAgent a0 act with
        transition_action_on_cellexit := t } true).position
        = (s.agents.getD i default).position := by
      rw [advancePhase_position]; exact hpre
    have hlist : ((s.agents.set i (advancePhase { preMoveAgent a0 act with
        transition_action_on_cellexit := t } true)).map EnvAgent.position)
        = s.agents.map EnvAgent.position :=
      set_map_pos_eq s.agents i _ h4
    rcases commitPhase_spec g
        (s.agents.set i (advancePhase { preMoveAgent a0 act with
          transition_action_on_cellexit := t } true))
        (advancePhase { preMoveAgent a0 act with
          transition_action_on_cellexit := t } true) with hc | ⟨_, _, hc⟩
    · rw [finishPhase_agents_map, hc, h4,
        ← List.getD_map s.agents default EnvAgent.position, list_set_getD_self]
      exact h
    · rw [finishPhase_agents_map]
      apply list_nodup_set _ h
      intro hmem
      rcases List.mem_map.mp ((hlist ▸ hmem : _ ∈ (s.agents.set i _).map EnvAgent.position)) with
        ⟨a2, ha2, ha2p⟩
      exact hc a2 ha2 ha2p

/-- One iteration of the per-agent loop preserves distinctness of the
committed positions. -/
theorem processAgent_nodup (g : GridTransitionMap) (o : Nat × Nat)
    (act : Option Int) (i : Nat) (s : StepState)
    (h : (s.agents.map EnvAgent.position).Nodup) :
    ((processAgent g o act i s).agents.map EnvAgent.position).Nodup := by
  have key : ∀ b : EnvAgent, b.position = (s.agents.getD i default).position →
      ((s.agents.set i b).map EnvAgent.position).Nodup := by
    intro b hb
    rw [set_map_pos_eq s.agents i b hb]
    exact h
  unfold processAgent
  dsimp only
  split
  · exact key _ (by simp [agentMalfunction_position])
  · split
    · split
      · exact processRest_nodup g i s _ 0 (by simp [agentMalfunction_position]) h
      · exact key _ (by simp [agentMalfunction_position])
    · exact processRest_nodup g i s _ (act.getD 0) (by simp [agentMalfunction_position]) h

theorem foldl_processAgent_nodup (g : GridTransitionMap) (orc : Nat → Nat × Nat)
    (acts : Nat → Option Int) :
    ∀ (l : List Nat) (s0 : StepState),
      (s0.agents.map EnvAgent.position).Nodup →
      (((l.foldl (fun s i => processAgent g (orc i) (acts i) i s) s0).agents.map
        EnvAgent.position).Nodup) := by
  intro l
  induction l with
  | nil => intro s0 h; exact h
  | cons j t ih =>
    intro s0 h
    rw [List.foldl_cons]
    exact ih _ (processAgent_nodup g (orc j) (acts j) j s0 h)

theorem railEnvLoop_nodup (g : GridTransitionMap) (orc : Nat → Nat × Nat)
    (acts : Nat → Option Int) (n : Nat) (s0 : StepState)
    (h : (s0.agents.map EnvAgent.position).Nodup) :
    ((railEnvLoop g orc acts n s0).agents.map EnvAgent.position).Nodup :=
  foldl_processAgent_nodup g orc acts (List.range n) s0 h

/-- Claim C1: for every tick of the simulation engine, if the agents occupy
pairwise distinct cells when the tick starts (as after a reset placing them
on distinct cells), then they occupy pairwise distinct cells when the tick
ends: a pending transition is committed only when the destination differs
from every agent position as already updated earlier in the same tick. -/
theorem step_preserves_distinct_positions (g : GridTransitionMap)
    (maxSteps : Option Nat) (orc : Nat → Nat × Nat) (acts : Nat → Option Int)
    (env : RailEnvState)
    (h : (env.agents.map EnvAgent.position).Nodup) :
    (((railEnvStep g maxSteps orc acts env).1).agents.map EnvAgent.position).Nodup := by
  unfold railEnvStep
  split
  · exact h
  · exact railEnvLoop_nodup g orc acts env.agents.length _ h

/-- Claim C10 (theorem): once the global done flag is set, `step` returns
immediately: every agent handle receives exactly the global completion bonus,
the actionable map is all false, and agents, per-agent done flags — hence
positions, directions, moving flags, progress fractions and malfunction
records — are untouched (no malfunction sampling or movement logic runs). -/
theorem step_after_global_done (g : GridTransitionMap) (maxSteps : Option Nat)
    (orc : Nat → Nat × Nat) (acts : Nat → Option Int) (env : RailEnvState)
    (h : env.done_all = true) :
    railEnvStep g maxSteps orc acts env =
      ({ env with elapsed_steps := env.elapsed_steps + 1 },
        List.replicate env.agents.length global_reward,
        List.replicate env.agents.length false) := by
  unfold railEnvStep
  simp only [h, if_true, List.map_replicate, zero_add]

/-- Witness for C10 at a concrete finished environment. -/
theorem step_after_global_done_witness :
    (RailEnvState.mk [agentOn (0, 2) (0, 2) false 0 0] [true] true 7).done_all = true ∧
    railEnvStep gridEW none noOracle noActions
        ⟨[agentOn (0, 2) (0, 2) false 0 0], [true], true, 7⟩ =
      (⟨[agentOn (0, 2) (0, 2) false 0 0], [true], true, 8⟩, [1], [false]) :=
  ⟨rfl, step_after_global_done gridEW none noOracle noActions _ rfl⟩

/-- Claim C6 (theorem, exhibiting the code bug): the guard
`action < 0 or action > len(RailEnvActions)` leaves the out-of-range value 5
untouched, while values below 0 or above 5 are downgraded to DO_NOTHING; a
stopped agent submitting 5 is therefore started and moved like a forward
move instead of doing nothing. -/
theorem action_five_escapes_downgrade :
    actionGuard 5 = 5 ∧ actionGuard 6 = 0 ∧ actionGuard (-1) = 0 ∧
    ((processAgent gridEW (0, 0) (some 5) 0
        ⟨[agentOn (0, 1) (0, 4) false 0 0], [false], [0]⟩).agents.getD 0
          default).moving = true ∧
    ((processAgent gridEW (0, 0) (some 5) 0
        ⟨[agentOn (0, 1) (0, 4) false 0 0], [false], [0]⟩).agents.getD 0
          default).position = (0, 2) ∧
    ((processAgent gridEW (0, 0) (some 0) 0
        ⟨[agentOn (0, 1) (0, 4) false 0 0], [false], [0]⟩).agents.getD 0
          default).moving = false ∧
    ((processAgent gridEW (0, 0) (some 0) 0
        ⟨[agentOn (0, 1) (0, 4) false 0 0], [false], [0]⟩).agents.getD 0
          default).position = (0, 1) := by
  decide

/-- Witness for C1 at a concrete two-agent environment. -/
theorem step_preserves_distinct_positions_witness :
    (([agentOn (0, 1) (0, 4) true 0 0,
       agentOn (0, 3) (0, 4) true 0 0] : List EnvAgent).map
        EnvAgent.position).Nodup ∧
    (((railEnvStep gridEW none noOracle (fun _ => some 2)
        ⟨[agentOn (0, 1) (0, 4) true 0 0, agentOn (0, 3) (0, 4) true 0 0],
          [false, false], false, 0⟩).1).agents.map EnvAgent.position).Nodup :=
  ⟨by decide,
    step_preserves_distinct_positions gridEW none noOracle (fun _ => some 2)
      ⟨[agentOn (0, 1) (0, 4) true 0 0, agentOn (0, 3) (0, 4) true 0 0],
        [false, false], false, 0⟩ (by decide)⟩

/-- Claim C2 (counterexample): on the final tick of a malfunction the source
clears the countdown and forces DO_NOTHING, but it also sets `moving = True`
and falls through to the movement logic, so the agent moves on that very
tick instead of resuming only on the next tick: a malfunctioning (countdown
1) eastbound agent at (0,1) ends the same tick at (0,2) with the countdown
cleared. -/
theorem malfunction_final_tick_moves :
    ((⟨[agentOn (0, 1) (0, 9) true 0 1], [false], false, 0⟩ :
        RailEnvState).agents.getD 0 default).malfunction = 1 ∧
    ((railEnvStep gridEW none noOracle noActions
        ⟨[agentOn (0, 1) (0, 9) true 0 1], [false], false, 0⟩).1.agents.getD 0
          default).malfunction = 0 ∧
    ((railEnvStep gridEW none noOracle noActions
        ⟨[agentOn (0, 1) (0, 9) true 0 1], [false], false, 0⟩).1.agents.getD 0
          default).position = (0, 2) ∧
    ((0, 2) : Pos) ≠ (0, 1) := by
  decide

/-- Claim C2 (amended, theorem): for an agent whose malfunction countdown is
active at the start of its processing: with countdown ≥ 2 the countdown is
decremented, the per-speed step penalty is applied, moving is set false, the
submitted action is ignored and no movement logic runs; with countdown
exactly 1 (the final tick) the countdown is cleared to 0, moving is set to
true, the action is forced to DO_NOTHING — and the remaining per-agent logic
(including movement) still runs on this same tick. -/
theorem malfunction_tick_spec (g : GridTransitionMap) (o : Nat × Nat)
    (act : Option Int) (i : Nat) (s : StepState)
    (hdone : s.dones.getD i false = false) :
    (2 ≤ (s.agents.getD i default).malfunction →
      processAgent g o act i s =
        ⟨s.agents.set i
            { agentMalfunction o
                { s.agents.getD i default with
                  old_direction := (s.agents.getD i default).direction,
                  old_position := (s.agents.getD i default).position } with
              malfunction := (s.agents.getD i default).malfunction - 1,
              moving := false },
          s.dones,
          addRew s.rewards i (step_penalty * (s.agents.getD i default).speed)⟩) ∧
    ((s.agents.getD i default).malfunction = 1 →
      processAgent g o act i s =
        processRest g i s
          { agentMalfunction o
              { s.agents.getD i default with
                old_direction := (s.agents.getD i default).direction,
                old_position := (s.agents.getD i default).position } with
            malfunction := 0, moving := true } 0) := by
  have hmalf := agentMalfunction_malfunction_pos o
    { s.agents.getD i default with
      old_direction := (s.agents.getD i default).direction,
      old_position := (s.agents.getD i default).position }
  have hspeed := agentMalfunction_speed o
    { s.agents.getD i default with
      old_direction := (s.agents.getD i default).direction,
      old_position := (s.agents.getD i default).position }
  constructor
  · intro h2
    have hm : (agentMalfunction o
        { s.agents.getD i default with
          old_direction := (s.agents.getD i default).direction,
          old_position := (s.agents.getD i default).position }).malfunction
        = (s.agents.getD i default).malfunction :=
      hmalf (show (s.agents.getD i default).malfunction ≠ 0 by omega)
    unfold processAgent
    dsimp only
    rw [hdone]
    simp only [Bool.false_eq_true, if_false]
    rw [hm, hspeed]
    rw [if_pos (by omega), if_neg (by omega)]
  · intro h1
    have hm : (agentMalfunction o
        { s.agents.getD i default with
          old_direction := (s.agents.getD i default).direction,
          old_position := (s.agents.getD i default).position }).malfunction
        = (s.agents.getD i default).malfunction :=
      hmalf (show (s.agents.getD i default).malfunction ≠ 0 by omega)
    unfold processAgent
    dsimp only
    rw [hdone]
    simp only [Bool.false_eq_true, if_false]
    rw [hm, h1]
    rw [if_pos (by omega), if_pos (by omega)]

/-- Witness for the amended C2 at a concrete malfunctioning agent. -/
theorem malfunction_tick_spec_witness :
    2 ≤ (sMalf3.agents.getD 0 default).malfunction ∧
    processAgent gridEW (0, 0) none 0 sMalf3 =
      ⟨sMalf3.agents.set 0
          { agentMalfunction (0, 0)
              { sMalf3.agents.getD 0 default with
                old_direction := (sMalf3.agents.getD 0 default).direction,
                old_position := (sMalf3.agents.getD 0 default).position } with
            malfunction := (sMalf3.agents.getD 0 default).malfunction - 1,
            moving := false },
        sMalf3.dones,
        addRew sMalf3.rewards 0
          (step_penalty * (sMalf3.agents.getD 0 default).speed)⟩ :=
  ⟨by decide, (malfunction_tick_spec gridEW (0, 0) none 0 sMalf3 rfl).1 (by decide)⟩

/-- Claim C3 (counterexample): an agent standing on its target with an active
malfunction countdown (here 3) ends the tick not marked done, with moving
untouched by the target check, and with the per-speed step penalty accrued —
the malfunction branch executes `continue` before the target check runs.  A
second agent away from its target keeps the global bonus from masking the
penalty. -/
theorem target_rest_penalty :
    ((⟨[agentOn (0, 1) (0, 1) false 0 3, agentOn (0, 3) (0, 9) false 0 0],
        [false, false], false, 0⟩ : RailEnvState).agents.getD 0
          default).position
      = ((⟨[agentOn (0, 1) (0, 1) false 0 3, agentOn (0, 3) (0, 9) false 0 0],
        [false, false], false, 0⟩ : RailEnvState).agents.getD 0 default).target ∧
    (railEnvStep gridEW none noOracle noActions
        ⟨[agentOn (0, 1) (0, 1) false 0 3, agentOn (0, 3) (0, 9) false 0 0],
          [false, false], false, 0⟩).1.dones.getD 0 false = false ∧
    (railEnvStep gridEW none noOracle noActions
        ⟨[agentOn (0, 1) (0, 1) false 0 3, agentOn (0, 3) (0, 9) false 0 0],
          [false, false], false, 0⟩).2.1.getD 0 0 = -1 ∧
    ((railEnvStep gridEW none noOracle noActions
        ⟨[agentOn (0, 1) (0, 1) false 0 3, agentOn (0, 3) (0, 9) false 0 0],
          [false, false], false, 0⟩).1.agents.getD 0 default).position = (0, 1) := by
  decide

theorem addRew_zero (rs : List ℚ) (i : Nat) : addRew rs i 0 = rs := by
  unfold addRew
  rw [add_zero]
  exact list_set_getD_self 0 rs i

theorem preMoveReward_zero (a : EnvAgent) (act : Int) : preMoveReward a act = 0 := by
  unfold preMoveReward stopPhase startPhase
  split <;> split <;> simp [stop_penalty, start_penalty]

theorem list_getD_set_self {α : Type} (l : List α) (i : Nat) (x d : α)
    (h : i < l.length) : (l.set i x).getD i d = x := by
  rw [List.getD_eq_getElem _ _ (by simpa using h)]
  exact List.getElem_set_self _

theorem map_global_bonus (l : List ℚ) :
    l.map (fun r => 0 * r + global_reward) = List.replicate l.length global_reward := by
  induction l with
  | nil => rfl
  | cons x t ih =>
      rw [List.map_cons, ih, List.length_cons, List.replicate_succ, zero_mul, zero_add]

/-- Claim C3 (amended, theorem): (1) for every agent whose processing is not
cut short before the target check — formalised as: the cell-entry block
produced a `proceed` outcome — if the (possibly updated) position equals the
target at the end of its processing, the agent is marked done, its moving
flag is cleared, and its per-tick reward is unchanged (no step penalty);
(2) if after the per-agent loop every agent's position equals its target,
the global done flag is set and every per-tick reward is overwritten with
the single global completion bonus. -/
theorem target_check_spec :
    (∀ (g : GridTransitionMap) (i : Nat) (s : StepState) (a0 : EnvAgent)
        (act : Int) (a3 : EnvAgent) (sel : Bool),
      i < s.agents.length → i < s.dones.length →
      entryPhase g (s.agents.set i (preMoveAgent a0 act)) (preMoveAgent a0 act)
          (normalizedAction a0 act) = .proceed a3 sel →
      ((processRest g i s a0 act).agents.getD i default).position
          = ((processRest g i s a0 act).agents.getD i default).target →
      (processRest g i s a0 act).dones.getD i false = true ∧
      ((processRest g i s a0 act).agents.getD i default).moving = false ∧
      (processRest g i s a0 act).rewards.getD i 0 = s.rewards.getD i 0) ∧
    (∀ (g : GridTransitionMap) (maxSteps : Option Nat) (orc : Nat → Nat × Nat)
        (acts : Nat → Option Int) (env : RailEnvState),
      env.done_all = false →
      (railEnvLoop g orc acts env.agents.length
          ⟨env.agents, env.dones, List.replicate env.agents.length 0⟩).agents.all
        (fun a => a.position == a.target) = true →
      (railEnvStep g maxSteps orc acts env).1.done_all = true ∧
      (railEnvStep g maxSteps orc acts env).2.1 =
        List.replicate (railEnvLoop g orc acts env.agents.length
            ⟨env.agents, env.dones, List.replicate env.agents.length 0⟩).rewards.length
          global_reward) := by
  constructor
  · intro g i s a0 act a3 sel hi hd hentry hout
    have hpr : processRest g i s a0 act =
        finishPhase s i
          (commitPhase g (s.agents.set i (advancePhase a3 sel)) (advancePhase a3 sel))
          (preMoveReward a0 act) := by
      unfold processRest
      rw [hentry]
    rw [hpr] at hout ⊢
    rw [preMoveReward_zero] at hout ⊢
    unfold finishPhase at hout ⊢
    by_cases hpt : (commitPhase g (s.agents.set i (advancePhase a3 sel))
        (advancePhase a3 sel)).position
        = (commitPhase g (s.agents.set i (advancePhase a3 sel))
          (advancePhase a3 sel)).target
    · rw [if_pos hpt]
      refine ⟨list_getD_set_self _ _ _ _ hd, ?_, ?_⟩
      · rw [list_getD_set_self _ _ _ _ hi]
      · rw [addRew_zero]
    · exfalso
      rw [if_neg hpt] at hout
      rw [list_getD_set_self _ _ _ _ hi] at hout
      exact hpt hout
  · intro g maxSteps orc acts env hdall hall
    unfold railEnvStep
    dsimp only
    rw [hdall]
    simp only [Bool.false_eq_true, if_false]
    rw [hall]
    simp only [if_true]
    cases maxSteps with
    | none => exact ⟨rfl, map_global_bonus _⟩
    | some m =>
      dsimp only
      split
      · exact ⟨rfl, map_global_bonus _⟩
      · exact ⟨rfl, map_global_bonus _⟩

/-- Witness for the amended C3: a full-speed agent one cell from its target
commits the move, is marked done with moving cleared, and accrues no step
penalty. -/
theorem target_check_spec_witness :
    (processRest gridEW 0 sReach (agentOn (0, 1) (0, 2) true 0 0) 2).dones.getD 0
        false = true ∧
    ((processRest gridEW 0 sReach
        (agentOn (0, 1) (0, 2) true 0 0) 2).agents.getD 0 default).moving = false ∧
    (processRest gridEW 0 sReach (agentOn (0, 1) (0, 2) true 0 0) 2).rewards.getD 0 0
      = sReach.rewards.getD 0 0 :=
  target_check_spec.1 gridEW 0 sReach (agentOn (0, 1) (0, 2) true 0 0) 2
    { agentOn (0, 1) (0, 2) true 0 0 with transition_action_on_cellexit := 2 } true
    (by decide) (by decide) (by decide) (by decide)

/-- Claim C5 (theorem): for every agent whose progress fraction reaches
1.0 or more in a tick — whether it was already at or above 1.0 or just
crossed it after the cell-entry block selected a transition and the advance
added the speed — the stored pending transition is re-validated at commit
time; if any check fails (destination out of grid or empty, transition not
declared legal, or destination occupied by some agent's current position)
the position and the direction are unchanged, the progress fraction stays
at or above 1.0 and the stored action is kept, so the commit is retried on
the next tick; on success the agent moves to the destination and the
fraction is reset to exactly 0.  The second part shows these hypotheses
exhaust the claim: an agent whose cell-entry block halted it ends the tick
with its fraction still at the entry boundary (≤ epsilon < 1), so it never
reaches the commit. -/
theorem commit_retry_spec :
    (∀ (g : GridTransitionMap) (i : Nat) (s : StepState) (a0 : EnvAgent)
        (act : Int) (a3 : EnvAgent) (sel : Bool),
      i < s.agents.length →
      entryPhase g (s.agents.set i (preMoveAgent a0 act)) (preMoveAgent a0 act)
          (normalizedAction a0 act) = .proceed a3 sel →
      1 ≤ (advancePhase a3 sel).position_fraction →
      let a4 := advancePhase a3 sel
      let r := check_action_on_agent g (s.agents.set i a4) a4
        a4.transition_action_on_cellexit
      let aOut := (processRest g i s a0 act).agents.getD i default
      ((r.new_cell_valid ∧ r.transition_valid ∧ r.cell_free) →
        aOut.position = r.new_position ∧ aOut.direction = r.new_direction ∧
        aOut.position_fraction = 0) ∧
      (¬(r.new_cell_valid ∧ r.transition_valid ∧ r.cell_free) →
        aOut.position = a0.position ∧ aOut.direction = a0.direction ∧
        1 ≤ aOut.position_fraction ∧
        aOut.transition_action_on_cellexit = a4.transition_action_on_cellexit)) ∧
    (∀ (g : GridTransitionMap) (i : Nat) (s : StepState) (a0 : EnvAgent)
        (act : Int) (a3h : EnvAgent) (r3 : ℚ),
      i < s.agents.length →
      entryPhase g (s.agents.set i (preMoveAgent a0 act)) (preMoveAgent a0 act)
          (normalizedAction a0 act) = .halted a3h r3 →
      ((processRest g i s a0 act).agents.getD i default).position_fraction
        ≤ epsilon) := by
  constructor
  · intro g i s a0 act a3 sel hi hentry hf
    dsimp only
    have ha3 : a3.position = a0.position ∧ a3.direction = a0.direction := by
      rcases entryPhase_cases g (s.agents.set i (preMoveAgent a0 act))
          (preMoveAgent a0 act) (normalizedAction a0 act) with hc | ⟨t, hc⟩ | hc
      · rw [hentry] at hc
        injection hc with h1 h2
        rw [h1]
        exact ⟨preMoveAgent_position a0 act, preMoveAgent_direction a0 act⟩
      · rw [hentry] at hc
        injection hc with h1 h2
        rw [h1]
        exact ⟨preMoveAgent_position a0 act, preMoveAgent_direction a0 act⟩
      · rw [hentry] at hc
        simp at hc
    have hpr : processRest g i s a0 act =
        finishPhase s i
          (commitPhase g (s.agents.set i (advancePhase a3 sel)) (advancePhase a3 sel))
          (preMoveReward a0 act) := by
      unfold processRest
      rw [hentry]
    constructor
    · intro hok
      have hc : commitPhase g (s.agents.set i (advancePhase a3 sel))
          (advancePhase a3 sel)
          = { advancePhase a3 sel with
              position := (check_action_on_agent g
                (s.agents.set i (advancePhase a3 sel)) (advancePhase a3 sel)
                (advancePhase a3 sel).transition_action_on_cellexit).new_position,
              direction := (check_action_on_agent g
                (s.agents.set i (advancePhase a3 sel)) (advancePhase a3 sel)
                (advancePhase a3 sel).transition_action_on_cellexit).new_direction,
              position_fraction := 0 } := by
        unfold commitPhase
        rw [if_pos hf, if_pos hok]
      rw [hpr]
      unfold finishPhase
      split
      · rw [list_getD_set_self _ _ _ _ hi, hc]
        exact ⟨rfl, rfl, rfl⟩
      · rw [list_getD_set_self _ _ _ _ hi, hc]
        exact ⟨rfl, rfl, rfl⟩
    · intro hbad
      have hc : commitPhase g (s.agents.set i (advancePhase a3 sel))
          (advancePhase a3 sel) = advancePhase a3 sel := by
        unfold commitPhase
        rw [if_pos hf, if_neg hbad]
      rw [hpr]
      unfold finishPhase
      split
      · rw [list_getD_set_self _ _ _ _ hi, hc]
        refine ⟨?_, ?_, hf, rfl⟩
        · show (advancePhase a3 sel).position = a0.position
          rw [advancePhase_position]
          exact ha3.1
        · show (advancePhase a3 sel).direction = a0.direction
          rw [advancePhase_direction]
          exact ha3.2
      · rw [list_getD_set_self _ _ _ _ hi, hc]
        refine ⟨?_, ?_, hf, rfl⟩
        · rw [advancePhase_position]
          exact ha3.1
        · rw [advancePhase_direction]
          exact ha3.2
  · intro g i s a0 act a3h r3 hi hhalt
    by_cases hfr : (preMoveAgent a0 act).position_fraction ≤ epsilon
    · have ha3 : a3h = { preMoveAgent a0 act with moving := false } := by
        rcases entryPhase_cases g (s.agents.set i (preMoveAgent a0 act))
            (preMoveAgent a0 act) (normalizedAction a0 act) with hc | ⟨t, hc⟩ | hc
        · rw [hhalt] at hc
          simp at hc
        · rw [hhalt] at hc
          simp at hc
        · rw [hhalt] at hc
          injection hc
      have hpr : processRest g i s a0 act =
          ⟨s.agents.set i a3h, s.dones,
            addRew s.rewards i (preMoveReward a0 act + r3)⟩ := by
        unfold processRest
        rw [hhalt]
      rw [hpr]
      dsimp only
      rw [list_getD_set_self _ _ _ _ hi, ha3]
      exact hfr
    · have hpro : entryPhase g (s.agents.set i (preMoveAgent a0 act))
          (preMoveAgent a0 act) (normalizedAction a0 act)
          = .proceed (preMoveAgent a0 act) false := by
        unfold entryPhase
        rw [if_neg hfr]
      rw [hpro] at hhalt
      simp at hhalt

/-- Witness for C5 at the claim's central contention case: the eastbound
agent selects its forward transition this tick, its fraction first reaches
1.0 by the advance, and the commit then fails because another agent
occupies the destination — position, direction and the stored action are
kept and the fraction stays at 1. -/
theorem commit_retry_spec_witness :
    ((processRest gridEW 1 sBlocked agMover 2).agents.getD 1 default).position
        = agMover.position ∧
    ((processRest gridEW 1 sBlocked agMover 2).agents.getD 1 default).direction
        = agMover.direction ∧
    1 ≤ ((processRest gridEW 1 sBlocked agMover 2).agents.getD 1
          default).position_fraction ∧
    ((processRest gridEW 1 sBlocked
        agMover 2).agents.getD 1 default).transition_action_on_cellexit
      = (advancePhase { agMover with transition_action_on_cellexit := 2 }
          true).transition_action_on_cellexit :=
  (commit_retry_spec.1 gridEW 1 sBlocked agMover 2
    { agMover with transition_action_on_cellexit := 2 } true
    (by decide) (by decide) (by decide)).2 (by decide)

/-! Lemmas for the single-exit forcing claim. -/

theorem normalizedAction_directional (a : EnvAgent) (act : Int)
    (h : act = 1 ∨ act = 2 ∨ act = 3) : normalizedAction a act = act := by
  rcases h with h | h | h <;> subst h <;> rfl

theorem preMoveAgent_directional (a : EnvAgent) (act : Int)
    (h : act = 1 ∨ act = 2 ∨ act = 3) :
    preMoveAgent a act = if a.moving then a else { a with moving := true } := by
  have hna := normalizedAction_directional a act h
  unfold preMoveAgent
  rw [hna]
  have hstop : stopPhase a act = (a, 0) := by
    unfold stopPhase
    rcases h with h | h | h <;> subst h <;> rw [if_neg (by norm_num)]
  rw [hstop]
  unfold startPhase
  by_cases hm : a.moving
  · rw [if_neg (by intro hc; exact hc.1 hm), if_pos hm]
  · rw [if_pos ⟨hm, by rcases h with h | h | h <;> subst h <;> norm_num⟩, if_neg hm]

theorem if_moving_moving (a : EnvAgent) :
    (if a.moving then a else { a with moving := true }).moving = true := by
  by_cases hm : a.moving
  · rw [if_pos hm]; exact hm
  · rw [if_neg hm]

theorem check_action_forward_single (g : GridTransitionMap) (a : EnvAgent)
    (hnum : numTransitions g a.position a.direction = 1) :
    check_action g a 2 =
      (argmax4 (get_transitions4 (g.cells a.position) a.direction).1
        (get_transitions4 (g.cells a.position) a.direction).2.1
        (get_transitions4 (g.cells a.position) a.direction).2.2.1
        (get_transitions4 (g.cells a.position) a.direction).2.2.2, some true) := by
  unfold numTransitions at hnum
  unfold check_action
  dsimp only
  rw [if_pos ⟨rfl, hnum⟩]

theorem check_action_turn_tv (g : GridTransitionMap) (a : EnvAgent) (act : Int)
    (hact : act = 1 ∨ act = 3)
    (hnum : numTransitions g a.position a.direction = 1) :
    (check_action g a act).2 = some false := by
  unfold numTransitions at hnum
  unfold check_action
  dsimp only
  rcases hact with h | h <;> subst h
  · rw [if_neg (by norm_num)]
    dsimp only
    rw [if_pos ⟨Or.inl rfl, le_of_eq hnum⟩]
  · rw [if_neg (by norm_num)]
    dsimp only
    rw [if_pos ⟨Or.inr rfl, le_of_eq hnum⟩]

theorem caoa_tv_of_eq (g : GridTransitionMap) (L : List EnvAgent) (a : EnvAgent)
    (act : Int) (b : Bool) (h2 : (check_action g a act).2 = some b) :
    (check_action_on_agent g L a act).transition_valid = b := by
  unfold check_action_on_agent
  dsimp only
  rw [h2]

theorem entryPhase_single_exit (g : GridTransitionMap) (L : List EnvAgent)
    (a : EnvAgent) (act : Int) (hact : act = 1 ∨ act = 3)
    (hmov : a.moving = true)
    (hnum : numTransitions g a.position a.direction = 1) :
    entryPhase g L a act = entryPhase g L a 2 := by
  unfold entryPhase
  by_cases hfr : a.position_fraction ≤ epsilon
  · rw [if_pos hfr, if_pos hfr]
    have htv1 : (check_action_on_agent g L a act).transition_valid = false :=
      caoa_tv_of_eq g L a act false (check_action_turn_tv g a act hact hnum)
    have hno1 : ¬((check_action_on_agent g L a act).new_cell_valid = true ∧
        (check_action_on_agent g L a act).transition_valid = true) := by
      intro hh
      rw [htv1] at hh
      exact Bool.false_ne_true hh.2
    rcases hact with h | h <;> subst h
    · rw [if_pos (by norm_num : ¬((1 : Int) = 0) ∧ ¬((1 : Int) = 4)),
        if_pos (by norm_num : ¬((2 : Int) = 0) ∧ ¬((2 : Int) = 4))]
      rw [if_neg hno1, if_pos ⟨Or.inl rfl, hmov⟩]
      rw [if_neg (by norm_num : ¬(((2 : Int) = 1 ∨ (2 : Int) = 3) ∧ a.moving = true))]
    · rw [if_pos (by norm_num : ¬((3 : Int) = 0) ∧ ¬((3 : Int) = 4)),
        if_pos (by norm_num : ¬((2 : Int) = 0) ∧ ¬((2 : Int) = 4))]
      rw [if_neg hno1, if_pos ⟨Or.inr rfl, hmov⟩]
      rw [if_neg (by norm_num : ¬(((2 : Int) = 1 ∨ (2 : Int) = 3) ∧ a.moving = true))]
  · rw [if_neg hfr, if_neg hfr]

theorem processRest_single_exit (g : GridTransitionMap) (i : Nat) (s : StepState)
    (a2 : EnvAgent) (act : Int) (hact : act = 1 ∨ act = 3)
    (hnum : numTransitions g a2.position a2.direction = 1) :
    processRest g i s a2 act = processRest g i s a2 2 := by
  have hact123 : act = 1 ∨ act = 2 ∨ act = 3 := by
    rcases hact with h | h
    · exact Or.inl h
    · exact Or.inr (Or.inr h)
  have hpm : preMoveAgent a2 act = preMoveAgent a2 2 := by
    rw [preMoveAgent_directional a2 act hact123,
      preMoveAgent_directional a2 2 (Or.inr (Or.inl rfl))]
  have hmov : (preMoveAgent a2 2).moving = true := by
    rw [preMoveAgent_directional a2 2 (Or.inr (Or.inl rfl))]
    exact if_moving_moving a2
  have hnum2 : numTransitions g (preMoveAgent a2 2).position
      (preMoveAgent a2 2).direction = 1 := by
    rw [preMoveAgent_position, preMoveAgent_direction]
    exact hnum
  have hentry := entryPhase_single_exit g (s.agents.set i (preMoveAgent a2 2))
    (preMoveAgent a2 2) act hact hmov hnum2
  unfold processRest
  rw [normalizedAction_directional a2 act hact123,
    normalizedAction_directional a2 2 (Or.inr (Or.inl rfl)),
    preMoveReward_zero a2 act, preMoveReward_zero a2 2, hpm, hentry]

/-- Claim C4 (theorem): at a cell/heading with exactly one legal exit,
submitting MOVE_LEFT or MOVE_RIGHT at a cell-entry boundary produces exactly
the same per-agent outcome as submitting MOVE_FORWARD — the forced
resolution of MOVE_FORWARD being the single exit (`argmax` of the transition
bits) — for moving and stopped agents alike. -/
theorem single_exit_forcing (g : GridTransitionMap) (o : Nat × Nat) (i : Nat)
    (s : StepState)
    (hnum : numTransitions g (s.agents.getD i default).position
      (s.agents.getD i default).direction = 1)
    (hfrac : (s.agents.getD i default).position_fraction ≤ epsilon) :
    processAgent g o (some 1) i s = processAgent g o (some 2) i s ∧
    processAgent g o (some 3) i s = processAgent g o (some 2) i s ∧
    check_action g (s.agents.getD i default) 2 =
      (argmax4
        (get_transitions4 (g.cells (s.agents.getD i default).position)
          (s.agents.getD i default).direction).1
        (get_transitions4 (g.cells (s.agents.getD i default).position)
          (s.agents.getD i default).direction).2.1
        (get_transitions4 (g.cells (s.agents.getD i default).position)
          (s.agents.getD i default).direction).2.2.1
        (get_transitions4 (g.cells (s.agents.getD i default).position)
          (s.agents.getD i default).direction).2.2.2, some true) := by
  have key : ∀ act : Int, act = 1 ∨ act = 3 →
      processAgent g o (some act) i s = processAgent g o (some 2) i s := by
    intro act hact
    unfold processAgent
    dsimp only [Option.getD]
    by_cases hdone : s.dones.getD i false = true
    · rw [if_pos hdone, if_pos hdone]
    · rw [if_neg hdone, if_neg hdone]
      by_cases hmal : 0 < (agentMalfunction o
          { s.agents.getD i default with
            old_direction := (s.agents.getD i default).direction,
            old_position := (s.agents.getD i default).position }).malfunction
      · rw [if_pos hmal, if_pos hmal]
      · rw [if_neg hmal, if_neg hmal]
        exact processRest_single_exit g i s _ act hact
          (by rw [agentMalfunction_position, agentMalfunction_direction]; exact hnum)
  exact ⟨key 1 (Or.inl rfl), key 3 (Or.inr rfl),
    check_action_forward_single g (s.agents.getD i default) hnum⟩

/-- Witness for C4: on the east-west straight track a stopped agent facing
east has exactly one legal exit, and MOVE_LEFT resolves exactly like
MOVE_FORWARD. -/
theorem single_exit_forcing_witness :
    numTransitions gridEW (sC4.agents.getD 0 default).position
      (sC4.agents.getD 0 default).direction = 1 ∧
    processAgent gridEW (0, 0) (some 1) 0 sC4
      = processAgent gridEW (0, 0) (some 2) 0 sC4 :=
  ⟨by decide, (single_exit_forcing gridEW (0, 0) 0 sC4 (by decide) (by decide)).1⟩

/-- Claim C7 (theorem): both network generators reseed the ambient random
stream from `seed + num_resets` as their first action, so their entire
output — grid and hint structures for the pairwise generator, the
(error) outcome for the sparse generator — is independent of the ambient
random state the process happened to be in: two runs with identical
(seed, reset count, width, height, agent count) give identical results. -/
theorem generator_reseed_deterministic :
    (∀ (co : ComplexOracle) (nsg nre mind maxd seed fuel2 w h n resets : Nat)
        (g1 g2 : NpRandomState),
      (complexRailGenerator co nsg nre mind maxd seed fuel2 w h n resets g1).1
        = (complexRailGenerator co nsg nre mind maxd seed fuel2 w h n resets g2).1) ∧
    (∀ (nc mt seed w h n resets : Nat) (g1 g2 : NpRandomState),
      (sparseRailGeneratorModel nc mt seed w h n resets g1).1
        = (sparseRailGeneratorModel nc mt seed w h n resets g2).1) :=
  ⟨fun _ _ _ _ _ _ _ _ _ _ _ _ _ => rfl, fun _ _ _ _ _ _ _ _ _ => rfl⟩

theorem step1Loop_isSome (co : ComplexOracle) (nsg mind maxd h w : Nat) :
    ∀ (fuel : Nat) (st : Step1State),
      (nsg - st.nr_created) + (sanityMax - st.created_sanity) ≤ fuel →
      (step1Loop co nsg mind maxd h w fuel st).isSome = true := by
  intro fuel
  induction fuel with
  | zero =>
    intro st hle
    unfold step1Loop
    split
    · next hgl => exfalso; omega
    · simp
  | succ f ih =>
    intro st hle
    unfold step1Loop
    split
    · next hgl =>
      rcases hsp : samplePair h w mind maxd st.grid st.start_goal sanityMax st.rng
        with ⟨os, rng⟩
      dsimp only
      cases os with
      | none => simp
      | some pr =>
        rcases pr with ⟨start, goal⟩
        dsimp only
        split
        · exact ih _ (by dsimp only; omega)
        · exact ih _ (by dsimp only; omega)
    · simp

theorem step1Loop_pairs_le (co : ComplexOracle) (nsg mind maxd h w : Nat) :
    ∀ (fuel : Nat) (st : Step1State) (r : Step1State),
      st.start_goal.length = st.nr_created → st.nr_created ≤ nsg →
      step1Loop co nsg mind maxd h w fuel st = some r →
      r.start_goal.length ≤ nsg := by
  intro fuel
  induction fuel with
  | zero =>
    intro st r hlen hnr hr
    unfold step1Loop at hr
    revert hr
    split
    · intro hr; exact absurd hr (by simp)
    · intro hr
      cases hr
      omega
  | succ f ih =>
    intro st r hlen hnr hr
    unfold step1Loop at hr
    revert hr
    split
    · next hgl =>
      rcases hsp : samplePair h w mind maxd st.grid st.start_goal sanityMax st.rng
        with ⟨os, rng⟩
      dsimp only
      cases os with
      | none =>
        intro hr
        cases hr
        dsimp only
        omega
      | some pr =>
        rcases pr with ⟨start, goal⟩
        dsimp only
        split
        · intro hr
          refine ih _ r ?_ ?_ hr
          · dsimp only
            simp [hlen]
          · dsimp only
            omega
        · intro hr
          refine ih _ r ?_ ?_ hr
          · dsimp only
            exact hlen
          · dsimp only
            exact hnr
    · intro hr
      cases hr
      omega

/-- Claim C8 (theorem): the start/goal-pair loop of the pairwise generator
always terminates within the bounded budget — fuel `nr_start_goal +
sanity_max` is never exhausted, because every iteration either connects a
pair, burns one of the 9000 failed-connection attempts, or gives up after
the 9000-attempt endpoint sampler fails — and the returned state carries at
most `nr_start_goal` connected pairs (possibly fewer than requested), for
every point-connector behaviour and every random stream. -/
theorem complex_pairs_loop_terminates (co : ComplexOracle)
    (nsg mind maxd h w : Nat) (g0 : Pos → Nat) (rng0 : NpRandomState) :
    (step1Loop co nsg mind maxd h w (nsg + sanityMax)
      ⟨g0, rng0, [], [], 0, 0⟩).isSome = true ∧
    ((step1Loop co nsg mind maxd h w (nsg + sanityMax)
      ⟨g0, rng0, [], [], 0, 0⟩).getD ⟨g0, rng0, [], [], 0, 0⟩).start_goal.length
      ≤ nsg := by
  have h1 := step1Loop_isSome co nsg mind maxd h w (nsg + sanityMax)
    ⟨g0, rng0, [], [], 0, 0⟩ (by simp)
  refine ⟨h1, ?_⟩
  rcases ho : step1Loop co nsg mind maxd h w (nsg + sanityMax)
      ⟨g0, rng0, [], [], 0, 0⟩ with _ | r
  · rw [ho] at h1; exact absurd h1 (by simp)
  · rw [Option.getD_some]
    exact step1Loop_pairs_le co nsg mind maxd h w _ _ r rfl (Nat.zero_le _) ho

theorem pyCall_metric_raises (p q : Pos) :
    pyCall_distance_on_rail p q ["metric"]
      = .error "TypeError: distance_on_rail got an unexpected keyword argument" := by
  unfold pyCall_distance_on_rail
  rw [if_neg (by decide)]

/-- Claim C9 (theorem, exhibiting the code bug): for every nonempty city
list, `_generate_node_connection_points` raises on its very first statement,
because it calls `distance_on_rail` with the keyword argument `metric` which
the two-parameter `distance_on_rail` of `grid_utils.py` does not accept —
an unrecoverable `TypeError` during sparse generation, not a warning. -/
theorem node_connection_points_raise (nodes : List Pos) (hne : nodes ≠ []) :
    generateNodeConnectionPoints nodes
      = .error "TypeError: distance_on_rail got an unexpected keyword argument" := by
  cases nodes with
  | nil => exact absurd rfl hne
  | cons p rest =>
    unfold generateNodeConnectionPoints
    rw [List.mapM_cons]
    have hfirst : neighbDistances p (p :: rest)
        = .error "TypeError: distance_on_rail got an unexpected keyword argument" := by
      unfold neighbDistances
      rw [List.mapM_cons, pyCall_metric_raises]
      rfl
    rw [hfirst]
    rfl

/-- Witness for C9 at a single concrete city centre. -/
theorem node_connection_points_raise_witness :
    ([((3 : Int), (3 : Int))] : List Pos) ≠ [] ∧
    generateNodeConnectionPoints [((3 : Int), (3 : Int))]
      = .error "TypeError: distance_on_rail got an unexpected keyword argument" :=
  ⟨by decide, node_connection_points_raise [((3 : Int), (3 : Int))] (by decide)⟩

/-- The sparse generator prefix propagates the `TypeError` whenever at least
one city centre was placed (`num_cities ≥ 1` always places the first one). -/
theorem sparse_generator_raises (nc mt seed w h n resets : Nat)
    (amb : NpRandomState)
    (hne : (generateRandomNodePositions nc (sparseNodeRadius mt) h w
      (npSeed (seed + resets))).1 ≠ []) :
    (sparseRailGeneratorModel nc mt seed w h n resets amb).1
      = .error "TypeError: distance_on_rail got an unexpected keyword argument" := by
  unfold sparseRailGeneratorModel
  dsimp only
  exact node_connection_points_raise _ hne

/-- Witness for the sparse-generator raise on a 30 x 30 grid with 2 cities. -/
theorem sparse_generator_raises_witness :
    (generateRandomNodePositions 2 (sparseNodeRadius 4) 30 30 (npSeed 0)).1 ≠ [] ∧
    (sparseRailGeneratorModel 2 4 0 30 30 1 0 ⟨0, 0⟩).1
      = .error "TypeError: distance_on_rail got an unexpected keyword argument" :=
  ⟨by decide, sparse_generator_raises 2 4 0 30 30 1 0 ⟨0, 0⟩ (by decide)⟩
